import Mathlib

/-!
Verification development for the mattn/go-xmlrpc XML-RPC client
(file `xmlrpc.go`).

The Go code drives a streaming XML tokenizer (`encoding/xml.Decoder`),
so the embedding works over the token stream that tokenizer delivers:
start tags (with their local name), end tags, and character data
(already entity-unescaped by the tokenizer, the way `p.Token()` hands
it to the Go code).  The decoder `next` / `nextStart`, the encoder
`writeXML`, the framer `Marshal` / `Unmarshal` and the client-side
`call` are translated line by line below.  Standard-library primitives
used by the source (`strconv.Atoi`, `base64.StdEncoding`,
`time.Parse` at the three fixed layouts, `strings.TrimSpace`) are
given executable models; `strconv.ParseFloat` and the shortest
round-trip float rendering of `fmt` are kept abstract: every
definition that needs them takes the parsing function as an explicit
parameter `pf`.
-/

namespace XmlRpc

/-- One event of the streaming XML tokenizer: a start tag (we keep the
local name, the only part `xmlrpc.go` inspects), an end tag, or
character data (unescaped text). -/
inductive Tok where
  | start (name : String)
  | stop
  | text (s : String)
deriving DecidableEq, Repr

/-- The Go error values produced by `xmlrpc.go` (plus the two panics the
encoder can raise, recorded as error-like outcomes of the model).
`fault` models the `*Fault` value returned as an `error` by the
`"fault"` branch of `next`; `badRequestText` models the constant
`errors.New(http.StatusText(http.StatusBadRequest))` (the string
"Bad Request") built in `call`. -/
inductive GoErr where
  | eof
  | invalidBoolean
  | atoiSyntax
  | atoiRange
  | parseFloatError
  | timeParseError
  | base64Error
  | invalidResponse
  | faultNotStruct
  | fault (code : Int) (message : String)
  | missingMethodResponse
  | missingMethodName
  | wantedArray
  | unsupportedType
  | panicUnexported
  | badRequestText
  | transportError
deriving DecidableEq, Repr

/-- The result of `time.Parse` at the three layouts used by the
`dateTime.iso8601` branch: a calendar date-time plus a UTC offset in
minutes (`-07:00`-style zones; the layouts without a zone yield UTC,
offset 0). -/
structure GoTime where
  year : Nat
  month : Nat
  day : Nat
  hour : Nat
  minute : Nat
  second : Nat
  offMin : Int
deriving DecidableEq, Repr

/-- The zero `time.Time` (January 1, year 1, 00:00:00 UTC), which the
`dateTime.iso8601` branch returns alongside the error when all three
`time.Parse` attempts fail. -/
def zeroTime : GoTime := ⟨1, 1, 1, 0, 0, 0, 0⟩

/-- The dynamic values flowing through `xmlrpc.go` as `interface{}`:
`vnil` is the nil interface, `varr` the slice type `xmlrpc.Array`
(`[]interface{}`), `vstruct` the map type `xmlrpc.Struct`
(`map[string]interface{}`, kept as a key-unique association list in
encounter order), `vbytes` a `[]byte` (each entry < 256), `vdouble`
a `float64` represented by its `fmt`/`strconv` shortest decimal
rendering, `vtime` a `time.Time`.  `vchan`, `vfunc`, `vcomplex` and
`vptr` stand for caller-supplied values of the corresponding
reflection kinds, which carry no XML-RPC payload. -/
inductive GoVal where
  | vnil
  | vbool (b : Bool)
  | vint (i : Int)
  | vdouble (render : String)
  | vstr (s : String)
  | vtime (t : GoTime)
  | vbytes (bs : List Nat)
  | varr (xs : List GoVal)
  | vstruct (ms : List (String × GoVal))
  | vchan
  | vfunc
  | vcomplex
  | vptr

/-- Model of `strings.TrimSpace`'s `unicode.IsSpace` on the ASCII space
characters (space, tab, newline, vertical tab, form feed, carriage
return); the Unicode space runes never appear in the payloads this
development manipulates. -/
def isSpaceGo (c : Char) : Bool :=
  c = ' ' || c = '\t' || c = '\n' || c = '\x0b' || c = '\x0c' || c = '\r'

/-- Trim `isSpaceGo` characters from both ends of a character list. -/
def trimList (l : List Char) : List Char :=
  ((l.dropWhile isSpaceGo).reverse.dropWhile isSpaceGo).reverse

/-- Model of `strings.TrimSpace`. -/
def trimGo (s : String) : String := ⟨trimList s.data⟩

/-- Decimal digit characters, for the model of `fmt`'s `%v` integer
rendering. -/
def digitChar : Nat → Char
  | 0 => '0' | 1 => '1' | 2 => '2' | 3 => '3' | 4 => '4'
  | 5 => '5' | 6 => '6' | 7 => '7' | 8 => '8' | 9 => '9'
  | _ => '*'

/-- Big-endian decimal digits of a natural number (model of the
decimal rendering used by `fmt.Fprintf` with `%v` on integers). -/
def natToDigits (n : Nat) : List Char :=
  if h : n < 10 then [digitChar n]
  else
    have : n / 10 < n := Nat.div_lt_self (by omega) (by omega)
    natToDigits (n / 10) ++ [digitChar (n % 10)]

/-- Decimal rendering of a Go `int` (`fmt` `%v`). -/
def intRepr (i : Int) : String :=
  if i < 0 then ⟨'-' :: natToDigits (-i).toNat⟩ else ⟨natToDigits i.toNat⟩

/-- Value of a decimal digit character. -/
def digitVal (c : Char) : Option Nat :=
  if 48 ≤ c.toNat ∧ c.toNat ≤ 57 then some (c.toNat - 48) else none

/-- Fold decimal digits onto an accumulator; `none` on the first
non-digit character. -/
def parseDigitsAux (acc : Nat) : List Char → Option Nat
  | [] => some acc
  | c :: r =>
    match digitVal c with
    | some d => parseDigitsAux (acc * 10 + d) r
    | none => none

/-- Parse a non-empty all-digit character list as a natural number. -/
def parseDigits : List Char → Option Nat
  | [] => none
  | l => parseDigitsAux 0 l

/-- Model of `strconv.Atoi` (= `strconv.ParseInt(s, 10, 64)` on a
64-bit platform): optional sign, decimal digits, and the Go clamping
behaviour on range errors (the returned value is `math.MaxInt64` /
`math.MinInt64` together with the range error; syntax errors return
0).  The pair is (returned int, returned error). -/
def atoiGo (s : String) : Int × Option GoErr :=
  match s.data with
  | [] => (0, some GoErr.atoiSyntax)
  | c :: rest =>
    let signed : Bool × List Char :=
      if c = '-' then (true, rest)
      else if c = '+' then (false, rest)
      else (false, c :: rest)
    match parseDigits signed.2 with
    | none => (0, some GoErr.atoiSyntax)
    | some n =>
      if signed.1 then
        if n ≤ 2 ^ 63 then (-(n : Int), none)
        else (-(2 ^ 63 : Int), some GoErr.atoiRange)
      else
        if n ≤ 2 ^ 63 - 1 then ((n : Int), none)
        else ((2 ^ 63 - 1 : Int), some GoErr.atoiRange)

/-- The standard base64 alphabet, as the character list indexed by the
sextet value. -/
def b64Alphabet : List Char :=
  [ 'A','B','C','D','E','F','G','H','I','J','K','L','M',
    'N','O','P','Q','R','S','T','U','V','W','X','Y','Z',
    'a','b','c','d','e','f','g','h','i','j','k','l','m',
    'n','o','p','q','r','s','t','u','v','w','x','y','z',
    '0','1','2','3','4','5','6','7','8','9','+','/' ]

/-- Character for a sextet value (< 64). -/
def b64Char (n : Nat) : Char := b64Alphabet.getD n 'A'

/-- Sextet value of an alphabet character, `none` for a character
outside the standard alphabet. -/
def b64Index (c : Char) : Option Nat :=
  b64Alphabet.findIdx? (fun a => a = c)

/-- The complete 3-byte groups a `base64.NewEncoder` whose `Close` is
never called actually emits: `writeXML`'s base64 branch drops the
final 1 or 2 buffered bytes, so only `⌊len/3⌋` groups reach the
output. -/
def b64EncGroups : List Nat → List Char
  | b1 :: b2 :: b3 :: rest =>
    b64Char (b1 / 4) :: b64Char (b1 % 4 * 16 + b2 / 16) ::
    b64Char (b2 % 16 * 4 + b3 / 64) :: b64Char (b3 % 64) :: b64EncGroups rest
  | _ => []

/-- Quantum-by-quantum decoding for `base64.StdEncoding.DecodeString`
(after newline filtering): the input must split into 4-character
quanta, `=` padding may close only the final quantum, any character
outside the alphabet is a corruption error.  (Plain, non-Strict Go
decoding does not check the unused trailing bits.) -/
def b64DecQuanta : List Char → Option (List Nat)
  | [] => some []
  | c1 :: c2 :: c3 :: c4 :: rest =>
    match b64Index c1, b64Index c2 with
    | some s1, some s2 =>
      if c3 = '=' then
        if c4 = '=' ∧ rest = [] then some [s1 * 4 + s2 / 16] else none
      else
        match b64Index c3 with
        | some s3 =>
          if c4 = '=' then
            if rest = [] then some [s1 * 4 + s2 / 16, s2 % 16 * 16 + s3 / 4]
            else none
          else
            match b64Index c4 with
            | some s4 =>
              (b64DecQuanta rest).map
                (fun bs =>
                  (s1 * 4 + s2 / 16) :: (s2 % 16 * 16 + s3 / 4) ::
                  (s3 % 4 * 64 + s4) :: bs)
            | none => none
        | none => none
    | _, _ => none
  | _ => none

/-- Model of `base64.StdEncoding.DecodeString`: carriage returns and
newlines are ignored wherever they appear, everything else must form
valid padded quanta. -/
def b64DecodeGo (s : String) : Option (List Nat) :=
  b64DecQuanta (s.data.filter (fun c => !(c = '\r' || c = '\n')))

/-- Read exactly `k` decimal digits from the front of a character
list, returning their value and the remainder. -/
def readDigits : Nat → List Char → Option (Nat × List Char)
  | 0, l => some (0, l)
  | k + 1, c :: r =>
    match digitVal c with
    | some d =>
      (readDigits k r).bind fun p => some (d * 10 ^ k + p.1, p.2)
    | none => none
  | _ + 1, [] => none

/-- Expect a literal character at the front of the list. -/
def readLit (c : Char) : List Char → Option (List Char)
  | c' :: r => if c' = c then some r else none
  | [] => none

/-- Days in a month, as `time.Parse` validates the day field. -/
def daysIn (year month : Nat) : Nat :=
  if month = 2 then
    if year % 4 = 0 ∧ (year % 100 ≠ 0 ∨ year % 400 = 0) then 29 else 28
  else if month = 4 ∨ month = 6 ∨ month = 9 ∨ month = 11 then 30
  else 31

/-- Field-range validation performed by `time.Parse`. -/
def timeFieldsOk (y mo d h mi s : Nat) : Bool :=
  decide (1 ≤ mo ∧ mo ≤ 12 ∧ 1 ≤ d ∧ d ≤ daysIn y mo ∧ h ≤ 23 ∧ mi ≤ 59 ∧ s ≤ 59)

/-- The date-time core `YYYY…MM…DD…Thh:mm:ss` shared by the three
layouts; `sep` is the character between the date fields (`-` for the
extended layouts) or `none` for the compact one. -/
def readStamp (sep : Option Char) (l : List Char) :
    Option (Nat × Nat × Nat × Nat × Nat × Nat × List Char) := do
  let (y, l) ← readDigits 4 l
  let l ← match sep with | some c => readLit c l | none => some l
  let (mo, l) ← readDigits 2 l
  let l ← match sep with | some c => readLit c l | none => some l
  let (d, l) ← readDigits 2 l
  let l ← readLit 'T' l
  let (h, l) ← readDigits 2 l
  let l ← readLit ':' l
  let (mi, l) ← readDigits 2 l
  let l ← readLit ':' l
  let (s, l) ← readDigits 2 l
  some (y, mo, d, h, mi, s, l)

/-- Model of `time.Parse("20060102T15:04:05", s)`: compact ISO basic, no zone
(UTC), entire input consumed, fields validated. -/
def parseTimeBasic (str : String) : Option GoTime := do
  let (y, mo, d, h, mi, s, l) ← readStamp none str.data
  if l = [] ∧ timeFieldsOk y mo d h mi s then some ⟨y, mo, d, h, mi, s, 0⟩
  else none

/-- Model of `time.Parse("2006-01-02T15:04:05-07:00", s)`: extended ISO with a
numeric UTC offset. -/
def parseTimeOffset (str : String) : Option GoTime := do
  let (y, mo, d, h, mi, s, l) ← readStamp (some '-') str.data
  match l with
  | sc :: l =>
    if sc = '+' ∨ sc = '-' then do
      let (oh, l) ← readDigits 2 l
      let l ← readLit ':' l
      let (om, l) ← readDigits 2 l
      if l = [] ∧ timeFieldsOk y mo d h mi s ∧ om ≤ 59 then
        let off : Int := (oh * 60 + om : Nat)
        some ⟨y, mo, d, h, mi, s, if sc = '-' then -off else off⟩
      else none
    else none
  | [] => none

/-- Model of `time.Parse("2006-01-02T15:04:05", s)`: extended ISO without a
zone (UTC). -/
def parseTimePlain (str : String) : Option GoTime := do
  let (y, mo, d, h, mi, s, l) ← readStamp (some '-') str.data
  if l = [] ∧ timeFieldsOk y mo d h mi s then some ⟨y, mo, d, h, mi, s, 0⟩
  else none

/-- The cascade of the three `time.Parse` attempts in the
`dateTime.iso8601` branch of `next` (lines 72-78 of `xmlrpc.go`),
in source order.  The input is NOT trimmed by the source. -/
def parseTimeGo (s : String) : Option GoTime :=
  match parseTimeBasic s with
  | some t => some t
  | none =>
    match parseTimeOffset s with
    | some t => some t
    | none => parseTimePlain s

/-- Model of `nextStart` (lines 185-196): keep reading tokens until a
start element appears; `none` models the error case (end of stream —
any non-nil tokenizer error behaves the same for this code). End tags
and character data are skipped. -/
def nextStart : List Tok → Option (String × List Tok)
  | [] => none
  | Tok.start n :: r => some (n, r)
  | Tok.stop :: r => nextStart r
  | Tok.text _ :: r => nextStart r

/-- The stream after a `nextStart(p)` whose result and error are both
discarded by the caller (as at lines 91, 95, 140, 142): on error the
decoder has consumed the whole stream. -/
def dropStart (toks : List Tok) : List Tok :=
  match nextStart toks with
  | some p => p.2
  | none => []

/-- Model of `p.DecodeElement(&s, &se)` into a string, called with the
stream positioned right after the start tag `se`: collect the
character data up to the matching end tag; nested elements are
skipped (their text is not collected), as `encoding/xml` does for a
string target.  `none` models the error case (stream ends before the
matching end tag). -/
def decElemText : Nat → List Tok → Option (String × List Tok)
  | 0, Tok.stop :: r => some ("", r)
  | d + 1, Tok.stop :: r => decElemText d r
  | d, Tok.start _ :: r => decElemText (d + 1) r
  | 0, Tok.text s :: r => (decElemText 0 r).map (fun p => (s ++ p.1, p.2))
  | d + 1, Tok.text _ :: r => decElemText (d + 1) r
  | _, [] => none

/-- Model of `p.DecodeElement(&nv, &se)` on the nil `interface{}`
target of the default branch (lines 180-182): `encoding/xml` resolves
an interface target to `d.Skip()`, consuming the element and leaving
the value nil. -/
def skipElem : Nat → List Tok → Option (List Tok)
  | 0, Tok.stop :: r => some r
  | d + 1, Tok.stop :: r => skipElem d r
  | d, Tok.start _ :: r => skipElem (d + 1) r
  | d, Tok.text _ :: r => skipElem d r
  | _, [] => none

/-- Go map assignment `st[name] = value` on the association-list model
of `xmlrpc.Struct`: replace the binding if the key is present,
otherwise append.  Keys stay unique. -/
def structSet (ms : List (String × GoVal)) (k : String) (v : GoVal) :
    List (String × GoVal) :=
  match ms with
  | [] => [(k, v)]
  | (k', v') :: rest =>
    if k' = k then (k, v) :: rest else (k', v') :: structSet rest k v

/-- Go map read `fs[k]`. -/
def structGet (ms : List (String × GoVal)) (k : String) : Option GoVal :=
  (ms.find? (fun p => p.1 = k)).map (·.2)

/-- The (name, value, error) triple returned by `next`, plus the
position of the stream when it returns. -/
structure NextRes where
  name : String
  val : GoVal
  err : Option GoErr
  rest : List Tok

mutual

/-- Model of `next` (lines 21-184 of `xmlrpc.go`).  `pf` is
`strconv.ParseFloat` followed by the canonical re-rendering of the
parsed `float64` (kept abstract); `fuel` only forces termination and
is irrelevant once large enough for the stream. -/
def next (pf : String → Option String) : Nat → List Tok → NextRes
  | 0, toks => ⟨"", GoVal.vnil, some GoErr.eof, toks⟩
  | fuel + 1, toks =>
    match nextStart toks with
    | none => ⟨"", GoVal.vnil, some GoErr.eof, []⟩
    | some (tag, r) =>
      if tag = "string" then
        match decElemText 0 r with
        | none => ⟨"", GoVal.vnil, some GoErr.eof, []⟩
        | some (s, r') => ⟨"", GoVal.vstr s, none, r'⟩
      else if tag = "boolean" then
        match decElemText 0 r with
        | none => ⟨"", GoVal.vnil, some GoErr.eof, []⟩
        | some (s, r') =>
          let t := trimGo s
          if t = "true" ∨ t = "1" then ⟨"", GoVal.vbool true, none, r'⟩
          else if t = "false" ∨ t = "0" then ⟨"", GoVal.vbool false, none, r'⟩
          else ⟨"", GoVal.vbool false, some GoErr.invalidBoolean, r'⟩
      else if tag = "int" ∨ tag = "i1" ∨ tag = "i2" ∨ tag = "i4" ∨ tag = "i8" then
        match decElemText 0 r with
        | none => ⟨"", GoVal.vnil, some GoErr.eof, []⟩
        | some (s, r') =>
          let p := atoiGo (trimGo s)
          ⟨"", GoVal.vint p.1, p.2, r'⟩
      else if tag = "double" then
        match decElemText 0 r with
        | none => ⟨"", GoVal.vnil, some GoErr.eof, []⟩
        | some (s, r') =>
          match pf (trimGo s) with
          | some c => ⟨"", GoVal.vdouble c, none, r'⟩
          | none => ⟨"", GoVal.vdouble "0", some GoErr.parseFloatError, r'⟩
      else if tag = "dateTime.iso8601" then
        match decElemText 0 r with
        | none => ⟨"", GoVal.vnil, some GoErr.eof, []⟩
        | some (s, r') =>
          match parseTimeGo s with
          | some t => ⟨"", GoVal.vtime t, none, r'⟩
          | none => ⟨"", GoVal.vtime zeroTime, some GoErr.timeParseError, r'⟩
      else if tag = "base64" then
        match decElemText 0 r with
        | none => ⟨"", GoVal.vnil, some GoErr.eof, []⟩
        | some (s, r') =>
          match b64DecodeGo s with
          | some bs => ⟨"", GoVal.vbytes bs, none, r'⟩
          | none => ⟨"", GoVal.vnil, some GoErr.base64Error, r'⟩
      else if tag = "member" ∨ tag = "value" ∨ tag = "name" ∨ tag = "param" then
        next pf fuel (dropStart r)
      else if tag = "struct" then
        match nextStart r with
        | none => ⟨"", GoVal.vstruct [], some GoErr.eof, []⟩
        | some (n0, r0) => structLoop pf fuel [] n0 r0
      else if tag = "array" then
        arrayLoop pf fuel [] (dropStart r)
      else if tag = "nil" then ⟨"", GoVal.vnil, none, r⟩
      else if tag = "params" then
        paramsLoop pf fuel [] r
      else if tag = "fault" then
        let res := next pf fuel r
        match res.val with
        | GoVal.vstruct fs =>
          let code : Int :=
            match structGet fs "faultCode" with
            | some (GoVal.vstr s) => (atoiGo s).1
            | _ => 0
          let msg : String :=
            match structGet fs "faultString" with
            | some (GoVal.vstr s) => s
            | _ => ""
          ⟨"", GoVal.vnil, some (GoErr.fault code msg), res.rest⟩
        | v => ⟨"", v, some GoErr.faultNotStruct, res.rest⟩
      else
        match skipElem 0 r with
        | none => ⟨"", GoVal.vnil, some GoErr.eof, []⟩
        | some r' => ⟨tag, GoVal.vnil, none, r'⟩

/-- The member loop of the `"struct"` branch (lines 98-136), with `se`
the name of the start element the loop condition inspects.  The two
`break` paths return the struct built so far with the outer error
(`eof` after a failed `nextStart`, nil after a failed inner `next` —
the inner error is shadowed); the misplaced-tag paths return a nil
value with the "invalid response" error; a failed `nextStart` before
the name check also lands there because the zero `xml.StartElement`
has an empty name. -/
def structLoop (pf : String → Option String) :
    Nat → List (String × GoVal) → String → List Tok → NextRes
  | 0, st, _, toks => ⟨"", GoVal.vstruct st, some GoErr.eof, toks⟩
  | fuel + 1, st, se, toks =>
    if se ≠ "member" then ⟨"", GoVal.vstruct st, none, toks⟩
    else
      match nextStart toks with
      | none => ⟨"", GoVal.vnil, some GoErr.invalidResponse, []⟩
      | some (n2, r2) =>
        if n2 ≠ "name" then ⟨"", GoVal.vnil, some GoErr.invalidResponse, r2⟩
        else
          match decElemText 0 r2 with
          | none => ⟨"", GoVal.vnil, some GoErr.eof, []⟩
          | some (nm, r3) =>
            match nextStart r3 with
            | none => ⟨"", GoVal.vstruct st, some GoErr.eof, []⟩
            | some (n4, r4) =>
              let res := next pf fuel r4
              if n4 ≠ "value" then ⟨"", GoVal.vnil, some GoErr.invalidResponse, res.rest⟩
              else
                match res.err with
                | some _ => ⟨"", GoVal.vstruct st, none, res.rest⟩
                | none =>
                  let st' := structSet st nm res.val
                  match nextStart res.rest with
                  | none => ⟨"", GoVal.vstruct st', some GoErr.eof, []⟩
                  | some (n5, r5) => structLoop pf fuel st' n5 r5

/-- The element loop of the `"array"` branch (lines 141-148): each
iteration discards a `nextStart` ("top of value") and decodes one
value; ANY decode error — including plain end of data — merely ends
the loop, and the elements collected so far are returned with a nil
error. -/
def arrayLoop (pf : String → Option String) :
    Nat → List GoVal → List Tok → NextRes
  | 0, ar, toks => ⟨"", GoVal.varr ar, none, toks⟩
  | fuel + 1, ar, toks =>
    let res := next pf fuel (dropStart toks)
    match res.err with
    | some _ => ⟨"", GoVal.varr ar, none, res.rest⟩
    | none => arrayLoop pf fuel (ar ++ [res.val]) res.rest

/-- The loop of the `"params"` branch (lines 156-162): decode values
until the first error, swallow that error, and return the collected
prefix with a nil error. -/
def paramsLoop (pf : String → Option String) :
    Nat → List GoVal → List Tok → NextRes
  | 0, ar, toks => ⟨"", GoVal.varr ar, none, toks⟩
  | fuel + 1, ar, toks =>
    let res := next pf fuel toks
    match res.err with
    | some _ => ⟨"", GoVal.varr ar, none, res.rest⟩
    | none => paramsLoop pf fuel (ar ++ [res.val]) res.rest

end

/-- The `next(p)` call of `Unmarshal` (lines 397-403) and the
Array-shape check on its result: an `Array` value is returned even
together with a decode error; a clean non-Array value turns into the
"wanted Array" error. -/
def unmarshalValue (pf : String → Option String) (nm : String)
    (toks : List Tok) : String × Option (List GoVal) × Option GoErr :=
  let res := next pf (2 * toks.length + 8) toks
  match res.val with
  | GoVal.varr a => (nm, some a, res.err)
  | _ => if res.err = none then (nm, none, some GoErr.wantedArray)
         else (nm, none, res.err)

/-- Model of `Unmarshal` (lines 376-404): require the root to be
`methodResponse`, or `methodCall` followed by `methodName` (whose
text becomes the returned name), then decode one value. -/
def Unmarshal (pf : String → Option String) (toks : List Tok) :
    String × Option (List GoVal) × Option GoErr :=
  match nextStart toks with
  | none => ("", none, some GoErr.eof)
  | some (se1, r1) =>
    if se1 = "methodResponse" then unmarshalValue pf "" r1
    else if se1 = "methodCall" then
      match nextStart r1 with
      | none => ("", none, some GoErr.eof)
      | some (se2, r2) =>
        if se2 = "methodName" then
          match decElemText 0 r2 with
          | none => ("", none, some GoErr.eof)
          | some (nm, r3) => unmarshalValue pf nm r3
        else ("", none, some GoErr.missingMethodName)
    else ("", none, some GoErr.missingMethodResponse)

/-- The token list for a piece of character data: the tokenizer yields
no token at all for empty text. -/
def strTokens (s : String) : List Tok :=
  if s = "" then [] else [Tok.text s]

mutual

/-- Model of `writeXML` (lines 200-306), emitting the markup as the
token stream the XML tokenizer would deliver for it (`xml.EscapeText`
and the tokenizer's entity decoding cancel at this boundary).
`vtime` (a Go `time.Time`) falls into the `reflect.Struct` branch,
whose field walk panics on the unexported fields (`panicUnexported`);
`varr` is the slice type `xmlrpc.Array`, and every non-`[]byte` slice
hits the `reflect.Slice` branch returning `UnsupportedType`.  The
base64 branch drops the unflushed final group because the
`base64.NewEncoder` is never closed. -/
def writeXML : GoVal → Bool → Except GoErr (List Tok)
  | GoVal.vnil, _ => Except.ok [Tok.start "nil", Tok.stop]
  | GoVal.vbytes bs, _ =>
    Except.ok ([Tok.start "base64"] ++ strTokens ⟨b64EncGroups bs⟩ ++ [Tok.stop])
  | GoVal.vbool b, _ =>
    Except.ok [Tok.start "boolean", Tok.text (if b then "true" else "false"), Tok.stop]
  | GoVal.vint i, typ =>
    Except.ok (if typ then [Tok.start "int", Tok.text (intRepr i), Tok.stop]
               else strTokens (intRepr i))
  | GoVal.vdouble s, typ =>
    Except.ok (if typ then [Tok.start "double", Tok.text s, Tok.stop]
               else strTokens s)
  | GoVal.vstr s, typ =>
    Except.ok (if typ then [Tok.start "string"] ++ strTokens s ++ [Tok.stop]
               else strTokens s)
  | GoVal.vtime _, _ => Except.error GoErr.panicUnexported
  | GoVal.varr _, _ => Except.error GoErr.unsupportedType
  | GoVal.vchan, _ => Except.error GoErr.unsupportedType
  | GoVal.vfunc, _ => Except.error GoErr.unsupportedType
  | GoVal.vcomplex, _ => Except.error GoErr.unsupportedType
  | GoVal.vptr, _ => Except.error GoErr.unsupportedType
  | GoVal.vstruct ms, typ => do
    let inner ← writeMembers ms typ
    Except.ok ([Tok.start "struct"] ++ inner ++ [Tok.stop])

/-- The member loop of `writeXML`'s `reflect.Map` branch (lines
262-277): member values keep the caller's `typ` flag. -/
def writeMembers : List (String × GoVal) → Bool → Except GoErr (List Tok)
  | [], _ => Except.ok []
  | (k, v) :: rest, typ => do
    let vt ← writeXML v typ
    let rt ← writeMembers rest typ
    Except.ok ([Tok.start "member", Tok.start "name"] ++ strTokens k ++
               [Tok.stop, Tok.start "value"] ++ vt ++
               [Tok.stop, Tok.stop] ++ rt)

end

/-- The parameter loop of `Marshal` (lines 338-344): each argument is
encoded in typed form inside `param > value`; the first encoding
error aborts `Marshal` with it. -/
def marshalParams : List GoVal → Except GoErr (List Tok)
  | [] => Except.ok []
  | a :: rest => do
    let av ← writeXML a true
    let rt ← marshalParams rest
    Except.ok ([Tok.start "param", Tok.start "value"] ++ av ++
               [Tok.stop, Tok.stop] ++ rt)

/-- Model of `Marshal` (lines 322-348): a `methodCall` envelope with
the escaped method name (or a `methodResponse` envelope when the name
is empty) around the `params` element.  The XML prolog is not a
tokenizer event. -/
def Marshal (name : String) (args : List GoVal) : Except GoErr (List Tok) := do
  let ps ← marshalParams args
  if name = "" then
    Except.ok ([Tok.start "methodResponse", Tok.start "params"] ++ ps ++
               [Tok.stop, Tok.stop])
  else
    Except.ok ([Tok.start "methodCall", Tok.start "methodName"] ++ strTokens name ++
               [Tok.stop, Tok.start "params"] ++ ps ++ [Tok.stop, Tok.stop])

/-- Model of `makeRequest` (lines 350-356): a `Marshal` error is
turned into `panic(err)`, so no request buffer is ever produced
(`none`). -/
def makeRequest (name : String) (args : List GoVal) : Option (List Tok) :=
  match Marshal name args with
  | Except.ok b => some b
  | Except.error _ => none

/-- Stand-in for a `*http.Client` value and its configuration. -/
structure HttpClientM where
  timeout : Nat
deriving DecidableEq, Repr

/-- Model of `http.DefaultClient` (no timeout configured). -/
def defaultHttpClient : HttpClientM := ⟨0⟩

/-- Model of `xmlrpc.Client` (lines 309-312). -/
structure ClientM where
  HttpClient : HttpClientM
  url : String
deriving DecidableEq, Repr

/-- Model of `NewClient` (lines 315-320): a fresh client with a
10-second timeout. -/
def NewClient (url : String) : ClientM := ⟨⟨10⟩, url⟩

/-- The response handling of `call` (lines 368-373): every non-2xx
status produces `errors.New(http.StatusText(http.StatusBadRequest))`
— the constant text "Bad Request", whatever the actual status — and
the body is decoded only on a 2xx status. -/
def respond (pf : String → Option String) (status : Nat) (body : List Tok) :
    Option (List GoVal) × Option GoErr :=
  if status / 100 ≠ 2 then (none, some GoErr.badRequestText)
  else
    let r := Unmarshal pf body
    (r.2.1, r.2.2)

/-- Model of `call` (lines 357-374).  `post` models
`http.DefaultClient.Post` — the function the source actually posts
through; the `client` parameter is received and then never used, as
at line 358.  The outer `Option` is `none` when `makeRequest`
panicked; a transport error from `post` is returned unchanged. -/
def call (pf : String → Option String)
    (post : String → List Tok → Option (Nat × List Tok))
    (client : HttpClientM) (url name : String) (args : List GoVal) :
    Option (Option (List GoVal) × Option GoErr) :=
  match makeRequest name args with
  | none => none
  | some req =>
    match post url req with
    | none => some (none, some GoErr.transportError)
    | some (status, body) => some (respond pf status body)

/-- Model of `Client.Call` (lines 414-416). -/
def ClientM.Call (pf : String → Option String)
    (post : String → List Tok → Option (Nat × List Tok))
    (c : ClientM) (name : String) (args : List GoVal) :
    Option (Option (List GoVal) × Option GoErr) :=
  call pf post c.HttpClient c.url name args

/-- Model of the package-level `Call` (lines 419-421). -/
def Call (pf : String → Option String)
    (post : String → List Tok → Option (Nat × List Tok))
    (url name : String) (args : List GoVal) :
    Option (Option (List GoVal) × Option GoErr) :=
  call pf post defaultHttpClient url name args

/-! ### Helper lemmas about the standard-library models -/

theorem dropWhile_cons_head {p : Char → Bool} :
    ∀ {l a t}, List.dropWhile p l = a :: t → p a = false := by
  intro l
  induction l with
  | nil => intro a t h; simp [List.dropWhile] at h
  | cons c r ih =>
    intro a t h
    by_cases hc : p c
    · rw [List.dropWhile_cons_of_pos hc] at h; exact ih h
    · rw [List.dropWhile_cons_of_neg hc] at h
      cases h
      simpa using hc

theorem trimList_eq_rdrop (l : List Char) :
    trimList l = List.rdropWhile isSpaceGo (List.dropWhile isSpaceGo l) := rfl

theorem dropWhile_trimList (l : List Char) :
    List.dropWhile isSpaceGo (trimList l) = trimList l := by
  rw [trimList_eq_rdrop]
  rcases hu : List.dropWhile isSpaceGo l with _ | ⟨a, t⟩
  · simp [List.rdropWhile]
  · have ha : isSpaceGo a = false := dropWhile_cons_head hu
    have hpre := List.rdropWhile_prefix isSpaceGo (a :: t)
    rcases hpre with ⟨w, hw⟩
    rcases hv : List.rdropWhile isSpaceGo (a :: t) with _ | ⟨b, v⟩
    · simp
    · rw [hv] at hw
      have hb : b = a := by
        have := hw
        simp only [List.cons_append] at this
        exact (List.cons.injEq _ _ _ _ ▸ this).1
      subst hb
      rw [List.dropWhile_cons_of_neg (by simp [ha])]

/-- Trimming is idempotent, as `strings.TrimSpace` is. -/
theorem trimList_idem (l : List Char) : trimList (trimList l) = trimList l := by
  conv_lhs => rw [trimList_eq_rdrop, dropWhile_trimList, trimList_eq_rdrop]
  exact List.rdropWhile_idempotent _ _

theorem trimGo_idem (s : String) : trimGo (trimGo s) = trimGo s := by
  simp [trimGo, trimList_idem]

theorem string_append_empty (s : String) : s ++ "" = s := by
  cases s with
  | mk d => exact congrArg String.mk (List.append_nil d)

theorem digitVal_digitChar {d : Nat} (h : d < 10) :
    digitVal (digitChar d) = some d := by
  have : ∀ e, e < 10 → digitVal (digitChar e) = some e := by decide
  exact this d h

theorem natToDigits_ne_nil (n : Nat) : natToDigits n ≠ [] := by
  unfold natToDigits
  split
  · simp
  · simp

theorem natToDigits_mem {n : Nat} :
    ∀ c ∈ natToDigits n, ∃ d, d < 10 ∧ c = digitChar d := by
  induction n using Nat.strong_induction_on with
  | _ n ih =>
    intro c hc
    unfold natToDigits at hc
    split at hc
    · next h =>
      simp only [List.mem_singleton] at hc
      exact ⟨n, h, hc⟩
    · next h =>
      rw [List.mem_append] at hc
      rcases hc with hc | hc
      · exact ih (n / 10) (Nat.div_lt_self (by omega) (by omega)) c hc
      · simp only [List.mem_singleton] at hc
        exact ⟨n % 10, Nat.mod_lt _ (by omega), hc⟩

theorem parseDigitsAux_append (acc : Nat) (xs ys : List Char) :
    parseDigitsAux acc (xs ++ ys) =
      match parseDigitsAux acc xs with
      | some a => parseDigitsAux a ys
      | none => none := by
  induction xs generalizing acc with
  | nil => simp [parseDigitsAux]
  | cons c r ih =>
    simp only [List.cons_append, parseDigitsAux]
    cases digitVal c with
    | none => simp
    | some d => simp [ih]

theorem parseDigitsAux_natToDigits (n : Nat) :
    ∀ acc, parseDigitsAux acc (natToDigits n) =
      some (acc * 10 ^ (natToDigits n).length + n) := by
  induction n using Nat.strong_induction_on with
  | _ n ih =>
    intro acc
    unfold natToDigits
    split
    · next h =>
      simp [parseDigitsAux, digitVal_digitChar h]
    · next h =>
      rw [parseDigitsAux_append]
      rw [ih (n / 10) (Nat.div_lt_self (by omega) (by omega)) acc]
      simp only [parseDigitsAux, digitVal_digitChar (Nat.mod_lt n (by omega) : n % 10 < 10)]
      have hlen : (natToDigits (n / 10) ++ [digitChar (n % 10)]).length =
          (natToDigits (n / 10)).length + 1 := by simp
      rw [hlen]
      congr 1
      have hdm : n / 10 * 10 + n % 10 = n := by omega
      calc (acc * 10 ^ (natToDigits (n / 10)).length + n / 10) * 10 + n % 10
          = acc * (10 ^ (natToDigits (n / 10)).length * 10) + (n / 10 * 10 + n % 10) := by
            ring
        _ = acc * 10 ^ ((natToDigits (n / 10)).length + 1) + n := by
            rw [← pow_succ, hdm]

theorem parseDigits_natToDigits (n : Nat) :
    parseDigits (natToDigits n) = some n := by
  rcases hl : natToDigits n with _ | ⟨c, t⟩
  · exact absurd hl (natToDigits_ne_nil n)
  · have : parseDigits (c :: t) = parseDigitsAux 0 (c :: t) := rfl
    rw [this, ← hl, parseDigitsAux_natToDigits n 0]
    simp

theorem digitChar_props :
    ∀ d, d < 10 → isSpaceGo (digitChar d) = false ∧
      digitChar d ≠ '-' ∧ digitChar d ≠ '+' := by decide

theorem natToDigits_not_space {n : Nat} :
    ∀ c ∈ natToDigits n, isSpaceGo c = false := by
  intro c hc
  obtain ⟨d, hd, rfl⟩ := natToDigits_mem c hc
  exact (digitChar_props d hd).1

theorem trimList_eq_self {l : List Char}
    (h : ∀ c ∈ l, isSpaceGo c = false) : trimList l = l := by
  have h1 : List.dropWhile isSpaceGo l = l := by
    rw [List.dropWhile_eq_self_iff]
    intro hl
    simp only [Bool.not_eq_true]
    exact h _ (List.get_mem l 0 hl)
  have h2 : List.rdropWhile isSpaceGo l = l := by
    rw [List.rdropWhile_eq_self_iff]
    intro hl
    simp only [Bool.not_eq_true]
    exact h _ (List.getLast_mem hl)
  rw [trimList_eq_rdrop, h1, h2]

theorem trimGo_intRepr (i : Int) : trimGo (intRepr i) = intRepr i := by
  unfold trimGo intRepr
  split
  · congr 1
    refine trimList_eq_self ?_
    intro c hc
    rcases List.mem_cons.mp hc with rfl | hc2
    · decide
    · exact natToDigits_not_space _ hc2
  · congr 1
    exact trimList_eq_self (fun c hc => natToDigits_not_space c hc)

/-- The `strconv.Atoi` model parses back `fmt`'s rendering of any in-range
Go `int`. -/
theorem atoiGo_intRepr {i : Int} (h1 : -(2 ^ 63) ≤ i) (h2 : i < 2 ^ 63) :
    atoiGo (intRepr i) = (i, none) := by
  by_cases hi : i < 0
  · have hdata : (intRepr i).data = '-' :: natToDigits (-i).toNat := by
      unfold intRepr
      rw [if_pos hi]
    unfold atoiGo
    rw [hdata]
    simp only [reduceIte]
    rcases hl : natToDigits (-i).toNat with _ | ⟨c, t⟩
    · exact absurd hl (natToDigits_ne_nil _)
    · rw [← hl, parseDigits_natToDigits]
      have hle : (-i).toNat ≤ 2 ^ 63 := by omega
      simp only [hle, reduceIte]
      have : ((-i).toNat : Int) = -i := Int.toNat_of_nonneg (by omega)
      rw [this]
      simp
  · have hdata : (intRepr i).data = natToDigits i.toNat := by
      unfold intRepr
      rw [if_neg hi]
    unfold atoiGo
    rw [hdata]
    rcases hl : natToDigits i.toNat with _ | ⟨c, t⟩
    · exact absurd hl (natToDigits_ne_nil _)
    · obtain ⟨d, hd, hcd⟩ := natToDigits_mem c (by rw [hl]; exact List.mem_cons_self c t)
      have hcm : c ≠ '-' := by rw [hcd]; exact (digitChar_props d hd).2.1
      have hcp : c ≠ '+' := by rw [hcd]; exact (digitChar_props d hd).2.2
      simp only [hcm, hcp, reduceIte]
      rw [← hl, parseDigits_natToDigits]
      have hle : i.toNat ≤ 2 ^ 63 - 1 := by omega
      simp only [hle, reduceIte]
      have : (i.toNat : Int) = i := Int.toNat_of_nonneg (by omega)
      rw [this]
      simp

theorem b64Index_b64Char : ∀ n, n < 64 → b64Index (b64Char n) = some n := by decide

theorem b64Char_ne :
    ∀ n, n < 64 → b64Char n ≠ '=' ∧ b64Char n ≠ '\r' ∧ b64Char n ≠ '\n' := by decide

theorem b64EncGroups_mem : ∀ (bs : List Nat), (∀ b ∈ bs, b < 256) →
    ∀ c ∈ b64EncGroups bs, ∃ m, m < 64 ∧ c = b64Char m
  | [], _, c, hc => by simp [b64EncGroups] at hc
  | [b1], _, c, hc => by simp [b64EncGroups] at hc
  | [b1, b2], _, c, hc => by simp [b64EncGroups] at hc
  | b1 :: b2 :: b3 :: rest, hb, c, hc => by
    have h1 : b1 < 256 := hb b1 (by simp)
    have h2 : b2 < 256 := hb b2 (by simp)
    have h3 : b3 < 256 := hb b3 (by simp)
    rw [b64EncGroups] at hc
    simp only [List.mem_cons] at hc
    rcases hc with rfl | rfl | rfl | rfl | hc
    · exact ⟨b1 / 4, by omega, rfl⟩
    · exact ⟨b1 % 4 * 16 + b2 / 16, by omega, rfl⟩
    · exact ⟨b2 % 16 * 4 + b3 / 64, by omega, rfl⟩
    · exact ⟨b3 % 64, by omega, rfl⟩
    · exact b64EncGroups_mem rest (fun b hbm => hb b (by simp [hbm])) c hc

theorem filter_b64EncGroups (bs : List Nat) (hb : ∀ b ∈ bs, b < 256) :
    (b64EncGroups bs).filter (fun c => !(c = '\r' || c = '\n')) = b64EncGroups bs := by
  rw [List.filter_eq_self]
  intro c hc
  obtain ⟨m, hm, rfl⟩ := b64EncGroups_mem bs hb c hc
  have hne := b64Char_ne m hm
  simp [hne.2.1, hne.2.2]

theorem b64DecQuanta_enc : ∀ (bs : List Nat), (∀ b ∈ bs, b < 256) →
    bs.length % 3 = 0 → b64DecQuanta (b64EncGroups bs) = some bs
  | [], _, _ => rfl
  | [b1], _, hlen => by simp at hlen
  | [b1, b2], _, hlen => by simp at hlen
  | b1 :: b2 :: b3 :: rest, hb, hlen => by
    have h1 : b1 < 256 := hb b1 (by simp)
    have h2 : b2 < 256 := hb b2 (by simp)
    have h3 : b3 < 256 := hb b3 (by simp)
    have e1 : b64Index (b64Char (b1 / 4)) = some (b1 / 4) :=
      b64Index_b64Char _ (by omega)
    have e2 : b64Index (b64Char (b1 % 4 * 16 + b2 / 16)) = some (b1 % 4 * 16 + b2 / 16) :=
      b64Index_b64Char _ (by omega)
    have e3 : b64Index (b64Char (b2 % 16 * 4 + b3 / 64)) = some (b2 % 16 * 4 + b3 / 64) :=
      b64Index_b64Char _ (by omega)
    have e4 : b64Index (b64Char (b3 % 64)) = some (b3 % 64) :=
      b64Index_b64Char _ (by omega)
    have ne3 : b64Char (b2 % 16 * 4 + b3 / 64) ≠ '=' := (b64Char_ne _ (by omega)).1
    have ne4 : b64Char (b3 % 64) ≠ '=' := (b64Char_ne _ (by omega)).1
    have ih := b64DecQuanta_enc rest (fun b hbm => hb b (by simp [hbm]))
      (by simp only [List.length_cons] at hlen; omega)
    rw [b64EncGroups, b64DecQuanta, e1, e2]
    simp only [ne3, reduceIte, e3, ne4, e4, ih, Option.map_some]
    have g1 : b1 / 4 * 4 + (b1 % 4 * 16 + b2 / 16) / 16 = b1 := by omega
    have g2 : (b1 % 4 * 16 + b2 / 16) % 16 * 16 + (b2 % 16 * 4 + b3 / 64) / 4 = b2 := by
      omega
    have g3 : (b2 % 16 * 4 + b3 / 64) % 4 * 64 + b3 % 64 = b3 := by omega
    rw [g1, g2, g3]
    rfl

theorem b64DecodeGo_enc (bs : List Nat) (hb : ∀ b ∈ bs, b < 256)
    (hlen : bs.length % 3 = 0) :
    b64DecodeGo ⟨b64EncGroups bs⟩ = some bs := by
  show b64DecQuanta ((b64EncGroups bs).filter _) = some bs
  rw [filter_b64EncGroups bs hb, b64DecQuanta_enc bs hb hlen]

/-! ### Concrete instances used to settle the claims -/

/-- A concrete stand-in for the abstract `strconv.ParseFloat`
parameter, used only in closed statements whose streams contain no
`double` element (the parameter is never consulted there). -/
def pf0 : String → Option String := fun _ => none

/-- A concrete transport for closed statements: every post fails. -/
def post0 : String → List Tok → Option (Nat × List Tok) := fun _ _ => none

/-- The dynamic values for which the encode/decode round trip survives
in this code: the scalar variants nil, boolean, integer (in `int64`
range), string, and `[]byte` whose length is a multiple of 3 (the
unclosed base64 encoder drops a final partial group). -/
def scalarRT : GoVal → Bool
  | GoVal.vnil => true
  | GoVal.vbool _ => true
  | GoVal.vint i => decide (-(2 ^ 63) ≤ i) && decide (i < 2 ^ 63)
  | GoVal.vstr _ => true
  | GoVal.vbytes bs => decide (bs.length % 3 = 0) && bs.all (fun b => decide (b < 256))
  | _ => false

/-- Token stream of the canonical XML-RPC fault response
`methodResponse > fault > value > struct` with string-valued
`faultCode` and `faultString` members. -/
def faultRespWrapped (cs ms : String) : List Tok :=
  [Tok.start "methodResponse", Tok.start "fault",
   Tok.start "value", Tok.start "struct",
   Tok.start "member", Tok.start "name", Tok.text "faultCode", Tok.stop,
   Tok.start "value", Tok.start "string", Tok.text cs, Tok.stop, Tok.stop, Tok.stop,
   Tok.start "member", Tok.start "name", Tok.text "faultString", Tok.stop,
   Tok.start "value", Tok.start "string", Tok.text ms, Tok.stop, Tok.stop, Tok.stop,
   Tok.stop, Tok.stop, Tok.stop, Tok.stop]

/-- The same fault but with the struct placed directly under `fault`
(no `value` wrapper) — the only shape in which this decoder actually
reaches its struct branch from the fault branch. -/
def faultRespBare (cs ms : String) : List Tok :=
  [Tok.start "methodResponse", Tok.start "fault",
   Tok.start "struct",
   Tok.start "member", Tok.start "name", Tok.text "faultCode", Tok.stop,
   Tok.start "value", Tok.start "string", Tok.text cs, Tok.stop, Tok.stop, Tok.stop,
   Tok.start "member", Tok.start "name", Tok.text "faultString", Tok.stop,
   Tok.start "value", Tok.start "string", Tok.text ms, Tok.stop, Tok.stop, Tok.stop,
   Tok.stop, Tok.stop, Tok.stop]

/-- A bare-struct fault carrying only `faultString` (no `faultCode`
member at all). -/
def faultRespNoCode (ms : String) : List Tok :=
  [Tok.start "methodResponse", Tok.start "fault",
   Tok.start "struct",
   Tok.start "member", Tok.start "name", Tok.text "faultString", Tok.stop,
   Tok.start "value", Tok.start "string", Tok.text ms, Tok.stop, Tok.stop, Tok.stop,
   Tok.stop, Tok.stop, Tok.stop]

/-- Response tokens for `param > value > int` entries inside the usual
response envelope, with a three-element array whose middle element is
a malformed boolean. -/
def badBoolArrayResp : List Tok :=
  [Tok.start "methodResponse", Tok.start "params", Tok.start "param",
   Tok.start "value", Tok.start "array", Tok.start "data",
   Tok.start "value", Tok.start "int", Tok.text "1", Tok.stop, Tok.stop,
   Tok.start "value", Tok.start "boolean", Tok.text "maybe", Tok.stop, Tok.stop,
   Tok.start "value", Tok.start "int", Tok.text "3", Tok.stop, Tok.stop,
   Tok.stop, Tok.stop, Tok.stop, Tok.stop, Tok.stop, Tok.stop]

/-- A response whose single parameter is a malformed boolean. -/
def badBoolParamResp : List Tok :=
  [Tok.start "methodResponse", Tok.start "params", Tok.start "param",
   Tok.start "value", Tok.start "boolean", Tok.text "maybe", Tok.stop,
   Tok.stop, Tok.stop, Tok.stop, Tok.stop]

/-- A malformed boolean directly under `methodResponse` (no `params`
wrapper). -/
def rootBoolResp : List Tok :=
  [Tok.start "methodResponse", Tok.start "boolean", Tok.text "maybe",
   Tok.stop, Tok.stop]

/-- A response with two `param` elements (ints 1 and 2). -/
def twoParamResp : List Tok :=
  [Tok.start "methodResponse", Tok.start "params",
   Tok.start "param", Tok.start "value", Tok.start "int", Tok.text "1",
   Tok.stop, Tok.stop, Tok.stop,
   Tok.start "param", Tok.start "value", Tok.start "int", Tok.text "2",
   Tok.stop, Tok.stop, Tok.stop,
   Tok.stop, Tok.stop]

/-- A bare `<array>` directly under `methodResponse` — no `params`
or `param` wrapper at all. -/
def bareArrayResp : List Tok :=
  [Tok.start "methodResponse", Tok.start "array", Tok.start "data",
   Tok.start "value", Tok.start "int", Tok.text "5", Tok.stop, Tok.stop,
   Tok.stop, Tok.stop, Tok.stop]

/-- A bare `<string>` directly under `methodResponse`. -/
def bareStrResp : List Tok :=
  [Tok.start "methodResponse", Tok.start "string", Tok.text "hi",
   Tok.stop, Tok.stop]

/-- The markup `writeXML` emits for the one-member struct used in the
C1 counterexample. -/
def structToksA : List Tok :=
  [Tok.start "struct", Tok.start "member", Tok.start "name", Tok.text "a",
   Tok.stop, Tok.start "value", Tok.start "int", Tok.text "1", Tok.stop,
   Tok.stop, Tok.stop, Tok.stop]

/-- A two-member struct whose members share one name, followed by a
further start tag so the member loop exits the way it does in real
response streams (mid-stream, not at end of input). -/
def dupStructToks (nm s1 s2 : String) : List Tok :=
  [Tok.start "struct",
   Tok.start "member", Tok.start "name", Tok.text nm, Tok.stop,
   Tok.start "value", Tok.start "string", Tok.text s1, Tok.stop, Tok.stop, Tok.stop,
   Tok.start "member", Tok.start "name", Tok.text nm, Tok.stop,
   Tok.start "value", Tok.start "string", Tok.text s2, Tok.stop, Tok.stop, Tok.stop,
   Tok.stop, Tok.start "endOfStruct"]

/-! ### C1 — encode/decode round trip -/

theorem strTokens_mk_cons (c : Char) (cs : List Char) :
    strTokens ⟨c :: cs⟩ = [Tok.text ⟨c :: cs⟩] := by
  unfold strTokens
  rw [if_neg]
  intro h
  have : (String.mk (c :: cs)).data = ("" : String).data := by rw [h]
  simp at this

/-- C1 (counterexample): the claim's round trip fails outside the
scalar fragment — an `Array` value (the slice `xmlrpc.Array`) does
not encode at all (`UnsupportedType`); a `time.Time` value makes the
encoder panic on unexported fields; a 1-byte `[]byte` is silently
encoded as the empty base64 payload and decodes back to an empty
byte slice; and the markup of a struct does not decode back cleanly —
the member loop returns the struct together with an EOF error after
over-reading the stream. -/
theorem c1_roundtrip_counterexample :
    writeXML (GoVal.varr [GoVal.vint 1]) true = Except.error GoErr.unsupportedType ∧
    writeXML (GoVal.vtime zeroTime) true = Except.error GoErr.panicUnexported ∧
    (writeXML (GoVal.vbytes [1]) true = Except.ok [Tok.start "base64", Tok.stop] ∧
      next pf0 3 [Tok.start "base64", Tok.stop] = ⟨"", GoVal.vbytes [], none, []⟩ ∧
      GoVal.vbytes ([] : List Nat) ≠ GoVal.vbytes [1]) ∧
    (writeXML (GoVal.vstruct [("a", GoVal.vint 1)]) true = Except.ok structToksA ∧
      next pf0 20 structToksA =
        ⟨"", GoVal.vstruct [("a", GoVal.vint 1)], some GoErr.eof, []⟩) := by
  refine ⟨rfl, rfl, ⟨rfl, rfl, by simp⟩, ⟨?_, rfl⟩⟩
  simp [writeXML, writeMembers, strTokens, structToksA, intRepr, natToDigits, digitChar,
        Bind.bind, Except.bind]

/-- C1 (amended): for every dynamic value built from the variants
Nil, Bool, Int (within `int64` range), String and Bytes (length a
multiple of 3), encoding with `writeXML` and decoding the resulting
markup with `next` yields the value back, with no error, whatever
`strconv.ParseFloat` model and whatever (sufficient, i.e. positive)
fuel.  Array, DateTime and Struct are excluded as shown by the
counterexample; Double is left out because its round trip hinges on
the floating-point rendering, which this model keeps abstract. -/
theorem c1_scalar_roundtrip (pf : String → Option String) (v : GoVal)
    (h : scalarRT v = true) :
    ∃ ts rest, writeXML v true = Except.ok ts ∧
      ∀ k, next pf (k + 1) ts = ⟨"", v, none, rest⟩ := by
  cases v with
  | vnil =>
    refine ⟨[Tok.start "nil", Tok.stop], [Tok.stop], rfl, fun k => ?_⟩
    simp [next, nextStart]
  | vbool b =>
    cases b with
    | true =>
      refine ⟨[Tok.start "boolean", Tok.text "true", Tok.stop], [], rfl, fun k => ?_⟩
      simp [next, nextStart, decElemText, string_append_empty,
            show trimGo "true" = "true" from rfl]
    | false =>
      refine ⟨[Tok.start "boolean", Tok.text "false", Tok.stop], [], rfl, fun k => ?_⟩
      simp [next, nextStart, decElemText, string_append_empty,
            show trimGo "false" = "false" from rfl]
  | vint i =>
    simp only [scalarRT, Bool.and_eq_true, decide_eq_true_eq] at h
    refine ⟨[Tok.start "int", Tok.text (intRepr i), Tok.stop], [], rfl, fun k => ?_⟩
    simp [next, nextStart, decElemText, string_append_empty, trimGo_intRepr,
          atoiGo_intRepr h.1 h.2]
  | vstr s =>
    by_cases hs : s = ""
    · subst hs
      refine ⟨[Tok.start "string", Tok.stop], [], ?_, fun k => ?_⟩
      · rfl
      · simp [next, nextStart, decElemText]
    · refine ⟨[Tok.start "string", Tok.text s, Tok.stop], [], ?_, fun k => ?_⟩
      · simp [writeXML, strTokens, hs]
      · simp [next, nextStart, decElemText, string_append_empty]
  | vbytes bs =>
    simp only [scalarRT, Bool.and_eq_true, decide_eq_true_eq, List.all_eq_true] at h
    obtain ⟨hlen, hb'⟩ := h
    have hb : ∀ b ∈ bs, b < 256 := fun b hbm => hb' b hbm
    rcases bs with _ | ⟨b1, _ | ⟨b2, _ | ⟨b3, rest⟩⟩⟩
    · refine ⟨[Tok.start "base64", Tok.stop], [], rfl, fun k => ?_⟩
      simp [next, nextStart, decElemText, b64DecodeGo, b64DecQuanta]
    · simp at hlen
    · simp at hlen
    · have henc : ∃ c cs, b64EncGroups (b1 :: b2 :: b3 :: rest) = c :: cs :=
        ⟨_, _, rfl⟩
      obtain ⟨c, cs, hcs⟩ := henc
      refine ⟨[Tok.start "base64", Tok.text ⟨b64EncGroups (b1 :: b2 :: b3 :: rest)⟩,
               Tok.stop], [], ?_, fun k => ?_⟩
      · simp only [writeXML, hcs, strTokens_mk_cons]
        rfl
      · simp [next, nextStart, decElemText, string_append_empty,
              b64DecodeGo_enc _ hb hlen]
  | vdouble s => simp [scalarRT] at h
  | vtime t => simp [scalarRT] at h
  | varr xs => simp [scalarRT] at h
  | vstruct ms => simp [scalarRT] at h
  | vchan => simp [scalarRT] at h
  | vfunc => simp [scalarRT] at h
  | vcomplex => simp [scalarRT] at h
  | vptr => simp [scalarRT] at h

/-- Witness for C1 (amended) at the concrete value `vbytes [1,2,3]`. -/
theorem c1_scalar_roundtrip_witness :
    scalarRT (GoVal.vbytes [1, 2, 3]) = true ∧
    ∃ ts rest, writeXML (GoVal.vbytes [1, 2, 3]) true = Except.ok ts ∧
      ∀ k, next pf0 (k + 1) ts = ⟨"", GoVal.vbytes [1, 2, 3], none, rest⟩ :=
  ⟨by decide, c1_scalar_roundtrip pf0 (GoVal.vbytes [1, 2, 3]) (by decide)⟩

/-! ### C2 — fault responses -/

/-- C2 (counterexample): the canonical fault response — the fault's
struct wrapped in `<value>` as the XML-RPC wire format prescribes,
with `faultCode` "4" and `faultString` "Too many parameters." — does
NOT decode to a fault error carrying code 4 and that message: the
`"value"` branch of `next` consumes the following start tag, so the
inner `<struct>` tag is swallowed, the struct branch is never
reached, and the result is the "fault: wanted Struct" error. -/
theorem c2_fault_counterexample :
    Unmarshal pf0 (faultRespWrapped "4" "Too many parameters.") =
      ("", none, some GoErr.faultNotStruct) ∧
    GoErr.faultNotStruct ≠ GoErr.fault 4 "Too many parameters." :=
  ⟨rfl, by decide⟩

/-- C2 (amended): a fault response never comes back as a normal
success — the value-wrapped shape yields the "fault: wanted Struct"
error for every code/message text, and when the struct sits directly
under `fault` (the only shape whose struct this decoder reaches) the
call errors with that code and message; a non-numeric or missing
`faultCode` degrades to code 0; with code text "4" and message "Too
many parameters." the bare shape produces exactly that fault. -/
theorem c2_fault_amended :
    (∀ (pf : String → Option String) (cs ms : String),
      Unmarshal pf (faultRespWrapped cs ms) =
        ("", none, some GoErr.faultNotStruct)) ∧
    (∀ (pf : String → Option String) (cs ms : String),
      Unmarshal pf (faultRespBare cs ms) =
        ("", none, some (GoErr.fault (atoiGo cs).1 ms))) ∧
    (∀ (pf : String → Option String) (ms : String),
      Unmarshal pf (faultRespNoCode ms) =
        ("", none, some (GoErr.fault 0 ms))) ∧
    (atoiGo "4").1 = 4 ∧ (atoiGo "four").1 = 0 ∧
    Unmarshal pf0 (faultRespBare "4" "Too many parameters.") =
      ("", none, some (GoErr.fault 4 "Too many parameters.")) := by
  refine ⟨fun pf cs ms => ?_, fun pf cs ms => ?_, fun pf ms => ?_, rfl, rfl, rfl⟩
  · simp [Unmarshal, unmarshalValue, faultRespWrapped, next, nextStart, decElemText,
          dropStart, structLoop, structSet, structGet, string_append_empty]
  · simp [Unmarshal, unmarshalValue, faultRespBare, next, nextStart, decElemText,
          dropStart, structLoop, structSet, structGet, string_append_empty]
  · simp [Unmarshal, unmarshalValue, faultRespNoCode, next, nextStart, decElemText,
          dropStart, structLoop, structSet, structGet, string_append_empty]

/-! ### C3 — decode errors and aborting -/

/-- C3 (counterexample): a response whose array has a malformed
boolean as its second element does not abort — `Unmarshal` (and the
2xx path of `call`) returns success, with the array truncated to the
elements decoded before the error. -/
theorem c3_abort_counterexample :
    Unmarshal pf0 badBoolArrayResp =
      ("", some [GoVal.varr [GoVal.vint 1]], none) ∧
    respond pf0 200 badBoolArrayResp =
      (some [GoVal.varr [GoVal.vint 1]], none) :=
  ⟨rfl, rfl⟩

/-- C3 (amended): a decode error aborts the call only when it is
raised outside the `params`/`array` collection loops; inside them the
error merely ends the loop and the prefix decoded so far is returned
as a successful result.  Concretely: the malformed array element
yields a truncated successful array; a malformed single parameter
yields a successful empty parameter list; the same malformed boolean
directly under `methodResponse` (no `params` loop in between) does
abort the call with `invalid boolean value`. -/
theorem c3_abort_amended :
    respond pf0 200 badBoolArrayResp =
      (some [GoVal.varr [GoVal.vint 1]], none) ∧
    respond pf0 200 badBoolParamResp = (some [], none) ∧
    respond pf0 200 rootBoolResp = (none, some GoErr.invalidBoolean) :=
  ⟨rfl, rfl, rfl⟩

/-! ### C4 — response envelope checking -/

/-- C4 (counterexample): a response with two `param` elements is not
rejected — both values are collected and returned as a successful
two-element array. -/
theorem c4_wrappers_counterexample :
    Unmarshal pf0 twoParamResp =
      ("", some [GoVal.vint 1, GoVal.vint 2], none) := rfl

/-- C4 (amended): `Unmarshal` insists only on the root tag
(`methodResponse`, or `methodCall` with `methodName`) and on the
decoded value being an `Array`; it never checks the
`params > param > value` chain itself: multiple `param` elements are
all collected into the returned array, a bare `array` without any
`params` wrapper is accepted, and a missing wrapper surfaces as the
"wanted Array" error only because the decoded value then fails the
`Array` shape check. -/
theorem c4_wrappers_amended :
    Unmarshal pf0 [Tok.start "html", Tok.stop] =
      ("", none, some GoErr.missingMethodResponse) ∧
    Unmarshal pf0 twoParamResp =
      ("", some [GoVal.vint 1, GoVal.vint 2], none) ∧
    Unmarshal pf0 bareStrResp = ("", none, some GoErr.wantedArray) ∧
    Unmarshal pf0 bareArrayResp = ("", some [GoVal.vint 5], none) :=
  ⟨rfl, rfl, rfl, rfl⟩

/-! ### C5 — non-2xx statuses -/

/-- C5 (counterexample): the error produced for a non-2xx status does
not identify the status — statuses 404 and 500 produce the very same
error value, the constant text "Bad Request". -/
theorem c5_status_counterexample :
    respond pf0 404 [] = respond pf0 500 [] ∧
    respond pf0 404 [] = (none, some GoErr.badRequestText) :=
  ⟨rfl, rfl⟩

/-- C5 (amended): every non-2xx status makes `call` return the fixed
`errors.New(http.StatusText(http.StatusBadRequest))` error — "Bad
Request" whatever the actual status — and the body is never decoded
(the result does not depend on it). -/
theorem c5_status_amended (pf : String → Option String) (status : Nat)
    (body : List Tok) (h : status / 100 ≠ 2) :
    respond pf status body = (none, some GoErr.badRequestText) := by
  simp [respond, h]

/-- Witness for C5 (amended) at status 404. -/
theorem c5_status_amended_witness :
    (404 : Nat) / 100 ≠ 2 ∧
    respond pf0 404 [] = (none, some GoErr.badRequestText) :=
  ⟨by decide, c5_status_amended pf0 404 [] (by decide)⟩

/-! ### C6 — whitespace around scalar payloads -/

/-- C6 (counterexample): `dateTime.iso8601` and `base64` payloads are
NOT trimmed — surrounding whitespace makes their decode fail, while
the same payload without the whitespace succeeds. -/
theorem c6_trim_counterexample :
    next pf0 3 [Tok.start "dateTime.iso8601",
        Tok.text "\n\t20060102T15:04:05\n", Tok.stop] =
      ⟨"", GoVal.vtime zeroTime, some GoErr.timeParseError, []⟩ ∧
    next pf0 3 [Tok.start "dateTime.iso8601",
        Tok.text "20060102T15:04:05", Tok.stop] =
      ⟨"", GoVal.vtime ⟨2006, 1, 2, 15, 4, 5, 0⟩, none, []⟩ ∧
    next pf0 3 [Tok.start "base64", Tok.text " QUJD", Tok.stop] =
      ⟨"", GoVal.vnil, some GoErr.base64Error, []⟩ ∧
    next pf0 3 [Tok.start "base64", Tok.text "QUJD", Tok.stop] =
      ⟨"", GoVal.vbytes [65, 66, 67], none, []⟩ :=
  ⟨rfl, rfl, rfl, rfl⟩

/-- C6 (amended): only the boolean, integer and double payloads are
passed through `strings.TrimSpace` before parsing — for them
surrounding whitespace can neither fail the decode nor change the
value; `dateTime.iso8601` and `base64` payloads are parsed untrimmed,
so surrounding whitespace fails them (the base64 decoder itself
forgives only carriage returns and newlines). -/
theorem c6_trim_amended :
    (∀ (pf : String → Option String) (k : Nat) (s : String),
      next pf (k + 1) [Tok.start "boolean", Tok.text s, Tok.stop] =
        next pf (k + 1) [Tok.start "boolean", Tok.text (trimGo s), Tok.stop]) ∧
    (∀ (pf : String → Option String) (k : Nat) (s : String),
      next pf (k + 1) [Tok.start "int", Tok.text s, Tok.stop] =
        next pf (k + 1) [Tok.start "int", Tok.text (trimGo s), Tok.stop]) ∧
    (∀ (pf : String → Option String) (k : Nat) (s : String),
      next pf (k + 1) [Tok.start "double", Tok.text s, Tok.stop] =
        next pf (k + 1) [Tok.start "double", Tok.text (trimGo s), Tok.stop]) ∧
    (next pf0 3 [Tok.start "dateTime.iso8601",
        Tok.text "\n\t20060102T15:04:05\n", Tok.stop] =
      ⟨"", GoVal.vtime zeroTime, some GoErr.timeParseError, []⟩ ∧
     next pf0 3 [Tok.start "base64", Tok.text " QUJD", Tok.stop] =
      ⟨"", GoVal.vnil, some GoErr.base64Error, []⟩) := by
  refine ⟨fun pf k s => ?_, fun pf k s => ?_, fun pf k s => ?_, rfl, rfl⟩
  all_goals
    simp [next, nextStart, decElemText, string_append_empty, trimGo_idem]

/-! ### C7 — boolean spellings -/

/-- C7 (counterexample): the encoder does not emit the numeric
spellings: `fmt`'s `%v` renders a Go bool as "true"/"false", so
`writeXML` emits `<boolean>true</boolean>` and
`<boolean>false</boolean>`, not `1`/`0`. -/
theorem c7_boolean_counterexample :
    writeXML (GoVal.vbool true) true =
      Except.ok [Tok.start "boolean", Tok.text "true", Tok.stop] ∧
    writeXML (GoVal.vbool false) true =
      Except.ok [Tok.start "boolean", Tok.text "false", Tok.stop] ∧
    Tok.text "true" ≠ Tok.text "1" ∧ Tok.text "false" ≠ Tok.text "0" :=
  ⟨rfl, rfl, by decide, by decide⟩

/-- C7 (amended): the encoder emits the word spellings "true"/"false"
(`%v` of a Go bool); the decoder accepts both the numeric and the
word spellings and rejects every other (trimmed) payload with the
`invalid boolean value` error. -/
theorem c7_boolean_amended :
    writeXML (GoVal.vbool true) true =
      Except.ok [Tok.start "boolean", Tok.text "true", Tok.stop] ∧
    writeXML (GoVal.vbool false) true =
      Except.ok [Tok.start "boolean", Tok.text "false", Tok.stop] ∧
    (∀ (pf : String → Option String) (k : Nat),
      next pf (k + 1) [Tok.start "boolean", Tok.text "1", Tok.stop] =
        ⟨"", GoVal.vbool true, none, []⟩) ∧
    (∀ (pf : String → Option String) (k : Nat),
      next pf (k + 1) [Tok.start "boolean", Tok.text "true", Tok.stop] =
        ⟨"", GoVal.vbool true, none, []⟩) ∧
    (∀ (pf : String → Option String) (k : Nat),
      next pf (k + 1) [Tok.start "boolean", Tok.text "0", Tok.stop] =
        ⟨"", GoVal.vbool false, none, []⟩) ∧
    (∀ (pf : String → Option String) (k : Nat),
      next pf (k + 1) [Tok.start "boolean", Tok.text "false", Tok.stop] =
        ⟨"", GoVal.vbool false, none, []⟩) ∧
    (∀ (pf : String → Option String) (k : Nat) (s : String),
      trimGo s ≠ "true" → trimGo s ≠ "1" → trimGo s ≠ "false" → trimGo s ≠ "0" →
      next pf (k + 1) [Tok.start "boolean", Tok.text s, Tok.stop] =
        ⟨"", GoVal.vbool false, some GoErr.invalidBoolean, []⟩) := by
  refine ⟨rfl, rfl, fun pf k => ?_, fun pf k => ?_, fun pf k => ?_, fun pf k => ?_,
          fun pf k s h1 h2 h3 h4 => ?_⟩
  · simp [next, nextStart, decElemText, string_append_empty,
          show trimGo "1" = "1" from rfl]
  · simp [next, nextStart, decElemText, string_append_empty,
          show trimGo "true" = "true" from rfl]
  · simp [next, nextStart, decElemText, string_append_empty,
          show trimGo "0" = "0" from rfl]
  · simp [next, nextStart, decElemText, string_append_empty,
          show trimGo "false" = "false" from rfl]
  · simp [next, nextStart, decElemText, string_append_empty, h1, h2, h3, h4]

/-- Witness for C7 (amended) at the rejected payload "maybe". -/
theorem c7_boolean_amended_witness :
    trimGo "maybe" ≠ "true" ∧ trimGo "maybe" ≠ "1" ∧ trimGo "maybe" ≠ "false" ∧
    trimGo "maybe" ≠ "0" ∧
    next pf0 1 [Tok.start "boolean", Tok.text "maybe", Tok.stop] =
      ⟨"", GoVal.vbool false, some GoErr.invalidBoolean, []⟩ :=
  ⟨by decide, by decide, by decide, by decide,
   c7_boolean_amended.2.2.2.2.2.2 pf0 0 "maybe"
     (by decide) (by decide) (by decide) (by decide)⟩

/-! ### C8 — duplicate struct member names -/

theorem structSet_mem_keys (st : List (String × GoVal)) (k x : String)
    (v : GoVal) :
    x ∈ (structSet st k v).map Prod.fst → x = k ∨ x ∈ st.map Prod.fst := by
  induction st with
  | nil =>
    simp [structSet]
  | cons p rest ih =>
    obtain ⟨k', v'⟩ := p
    by_cases hk : k' = k
    · subst hk
      simp only [structSet, if_true]
      simp only [List.map_cons, List.mem_cons]
      rintro (rfl | h)
      · exact Or.inl rfl
      · exact Or.inr (Or.inr h)
    · simp only [structSet]
      rw [if_neg hk]
      simp only [List.map_cons, List.mem_cons]
      rintro (rfl | h)
      · exact Or.inr (Or.inl rfl)
      · rcases ih h with h1 | h2
        · exact Or.inl h1
        · exact Or.inr (Or.inr h2)

theorem structSet_nodup (st : List (String × GoVal)) (k : String) (v : GoVal)
    (h : (st.map Prod.fst).Nodup) :
    ((structSet st k v).map Prod.fst).Nodup := by
  induction st with
  | nil => simp [structSet]
  | cons p rest ih =>
    obtain ⟨k', v'⟩ := p
    simp only [List.map_cons, List.nodup_cons] at h
    by_cases hk : k' = k
    · subst hk
      simp only [structSet, if_true]
      simp only [List.map_cons, List.nodup_cons]
      exact ⟨h.1, h.2⟩
    · simp only [structSet]
      rw [if_neg hk]
      simp only [List.map_cons, List.nodup_cons]
      refine ⟨fun hmem => ?_, ih h.2⟩
      rcases structSet_mem_keys rest k k' v hmem with h1 | h2
      · exact hk h1
      · exact h.1 h2

/-- C8: a struct whose two members share one name decodes with no
error to a struct holding the LAST member's value under that name
(Go map assignment: last write wins), and the map-model insertion
keeps the key set duplicate-free. -/
theorem c8_duplicate_keys :
    (∀ (pf : String → Option String) (nm s1 s2 : String),
      next pf 30 (dupStructToks nm s1 s2) =
        ⟨"", GoVal.vstruct [(nm, GoVal.vstr s2)], none, []⟩) ∧
    (∀ (st : List (String × GoVal)) (k : String) (v : GoVal),
      (st.map Prod.fst).Nodup → ((structSet st k v).map Prod.fst).Nodup) := by
  refine ⟨fun pf nm s1 s2 => ?_, fun st k v h => structSet_nodup st k v h⟩
  simp [dupStructToks, next, nextStart, decElemText, structLoop, structSet,
        string_append_empty]

/-- Witness for C8 at a concrete duplicate-member struct. -/
theorem c8_duplicate_keys_witness :
    next pf0 30 (dupStructToks "k" "a" "b") =
      ⟨"", GoVal.vstruct [("k", GoVal.vstr "b")], none, []⟩ ∧
    ((structSet [("x", GoVal.vnil)] "y" GoVal.vnil).map Prod.fst).Nodup :=
  ⟨c8_duplicate_keys.1 pf0 "k" "a" "b",
   c8_duplicate_keys.2 [("x", GoVal.vnil)] "y" GoVal.vnil (by decide)⟩

/-! ### C9 — unsupported argument values -/

/-- C9: an argument with no XML-RPC representation (function, channel,
complex number, pointer, or a non-`[]byte` slice — which is what the
dynamic `Array` type is) makes `Marshal` fail with `UnsupportedType`;
`makeRequest` turns that error into `panic(err)`, so `call` — and
with it `Client.Call` — never returns at all for such argument lists,
and in particular never returns an `UnsupportedType` error. -/
theorem c9_unsupported_panics :
    (∀ (pf : String → Option String)
        (post : String → List Tok → Option (Nat × List Tok))
        (client : HttpClientM) (url name : String) (args : List GoVal),
      Marshal name args = Except.error GoErr.unsupportedType →
      call pf post client url name args = none) ∧
    Marshal "m" [GoVal.vfunc] = Except.error GoErr.unsupportedType ∧
    Marshal "m" [GoVal.vchan] = Except.error GoErr.unsupportedType ∧
    Marshal "m" [GoVal.vcomplex] = Except.error GoErr.unsupportedType ∧
    Marshal "m" [GoVal.vptr] = Except.error GoErr.unsupportedType ∧
    Marshal "m" [GoVal.varr [GoVal.vstr "x"]] =
      Except.error GoErr.unsupportedType := by
  refine ⟨fun pf post client url name args h => ?_, rfl, rfl, rfl, rfl, rfl⟩
  simp [call, makeRequest, h]

/-- Witness for C9 at a channel argument. -/
theorem c9_unsupported_panics_witness :
    Marshal "m" [GoVal.vchan] = Except.error GoErr.unsupportedType ∧
    call pf0 post0 defaultHttpClient "http://e" "m" [GoVal.vchan] = none :=
  ⟨rfl, c9_unsupported_panics.1 pf0 post0 defaultHttpClient "http://e" "m"
    [GoVal.vchan] rfl⟩

/-! ### C10 — the client's HttpClient field is ignored -/

/-- C10: `call` posts through `http.DefaultClient` and never touches
the `client` argument `Client.Call` hands it, so two clients for the
same endpoint that differ only in their `HttpClient` behave
identically, and `Client.Call` coincides with the package-level
`Call` on the same URL. -/
theorem c10_client_independent (pf : String → Option String)
    (post : String → List Tok → Option (Nat × List Tok))
    (ca cb : ClientM) (name : String) (args : List GoVal)
    (h : ca.url = cb.url) :
    ClientM.Call pf post ca name args = ClientM.Call pf post cb name args ∧
    ClientM.Call pf post ca name args = Call pf post ca.url name args := by
  constructor
  · show call pf post ca.HttpClient ca.url name args =
      call pf post cb.HttpClient cb.url name args
    rw [h]
    exact rfl
  · rfl

/-- Witness for C10 with two clients differing only in configuration. -/
theorem c10_client_independent_witness :
    (ClientM.mk ⟨5⟩ "u").url = (ClientM.mk ⟨99⟩ "u").url ∧
    (ClientM.Call pf0 post0 (ClientM.mk ⟨5⟩ "u") "m" [] =
       ClientM.Call pf0 post0 (ClientM.mk ⟨99⟩ "u") "m" [] ∧
     ClientM.Call pf0 post0 (ClientM.mk ⟨5⟩ "u") "m" [] =
       Call pf0 post0 (ClientM.mk ⟨5⟩ "u").url "m" []) :=
  ⟨rfl, c10_client_independent pf0 post0 (ClientM.mk ⟨5⟩ "u")
    (ClientM.mk ⟨99⟩ "u") "m" [] rfl⟩

end XmlRpc
